import Mathlib

/-!
Shallow embedding of `packages/dns-test/src/container.rs` (the container
lifecycle core of the `dns-test` package) and proofs about it.

External processes (the `docker` CLI, the filesystem, `tempfile`) are modelled
as oracles: every result that the environment produces is an explicit input,
and every call the code issues to the environment is recorded in an `Effect`
trace that the embedded functions return alongside their value.
-/

set_option linter.unusedVariables false

namespace DnsTest

/-- Rust `String` / `&str` contents, modelled as a list of characters. -/
abbrev RStr := List Char

/-- A captured raw byte stream (`Vec<u8>`); each element is one byte. -/
abbrev Bytes := List Nat

/-- Whether a byte is a UTF-8 continuation byte (`0x80..=0xBF`). -/
def isCont (b : Nat) : Bool := 0x80 ≤ b && b ≤ 0xBF

/-- UTF-8 validation-and-decoding, the semantics of Rust's
`String::from_utf8` / `str::from_utf8`: strict UTF-8, rejecting overlong
encodings, surrogates and codepoints above `0x10FFFF`. Returns `none`
exactly on invalid input. -/
def decodeUtf8 : Bytes → Option (List Char)
  | [] => some []
  | b :: rest =>
    if b ≤ 0x7F then
      (decodeUtf8 rest).map (fun cs => Char.ofNat b :: cs)
    else if 0xC2 ≤ b && b ≤ 0xDF then
      match rest with
      | b1 :: rest1 =>
        if isCont b1 then
          (decodeUtf8 rest1).map (fun cs =>
            Char.ofNat ((b - 0xC0) * 0x40 + (b1 - 0x80)) :: cs)
        else none
      | [] => none
    else if 0xE0 ≤ b && b ≤ 0xEF then
      match rest with
      | b1 :: b2 :: rest2 =>
        if (if b = 0xE0 then decide (0xA0 ≤ b1 && b1 ≤ 0xBF)
            else if b = 0xED then decide (0x80 ≤ b1 && b1 ≤ 0x9F)
            else isCont b1) && isCont b2 then
          (decodeUtf8 rest2).map (fun cs =>
            Char.ofNat ((b - 0xE0) * 0x1000 + (b1 - 0x80) * 0x40 + (b2 - 0x80)) :: cs)
        else none
      | _ => none
    else if 0xF0 ≤ b && b ≤ 0xF4 then
      match rest with
      | b1 :: b2 :: b3 :: rest3 =>
        if (if b = 0xF0 then decide (0x90 ≤ b1 && b1 ≤ 0xBF)
            else if b = 0xF4 then decide (0x80 ≤ b1 && b1 ≤ 0x8F)
            else isCont b1) && isCont b2 && isCont b3 then
          (decodeUtf8 rest3).map (fun cs =>
            Char.ofNat ((b - 0xF0) * 0x40000 + (b1 - 0x80) * 0x1000
              + (b2 - 0x80) * 0x40 + (b3 - 0x80)) :: cs)
        else none
      | _ => none
    else none

/-- Whether `c` is one of the characters stripped by the trailing-trim loops
in `TryFrom<process::Output> for Output` (`'\n'` or `'\r'`). -/
def isTrailingNl (c : Char) : Bool := c = '\n' || c = '\r'

/-- The loop `while s.ends_with(|c| matches!(c, '\n' | '\r')) { s.pop(); }`:
removes every trailing `'\n'`/`'\r'` character. -/
def stripTrailingNewlines (s : RStr) : RStr :=
  (s.reverse.dropWhile isTrailingNl).reverse

/-- The error type of the crate (`crate::Error`), reduced to the variants the
code in `container.rs` can produce. `msg` is the `From<String>` conversion. -/
inductive Error where
  | io
  | utf8
  | addrParse
  | msg (m : RStr)
deriving DecidableEq, Repr

/-- A completed `std::process::Output`: exit status plus raw captured
streams. `success` is `ExitStatus::success()`. -/
structure ProcOutput where
  success : Bool
  stdout : Bytes
  stderr : Bytes
deriving DecidableEq, Repr

/-- The crate's `Output` struct: exit status and the two captured streams as
text with trailing newlines stripped. -/
structure Output where
  success : Bool
  stderr : RStr
  stdout : RStr
deriving DecidableEq, Repr

/-- `impl TryFrom<process::Output> for Output` (container.rs lines 200-220):
decode both streams as UTF-8 (an invalid stream is an error), then strip all
trailing `'\n'`/`'\r'` characters from each. -/
def tryFromOutput (o : ProcOutput) : Except Error Output :=
  match decodeUtf8 o.stderr with
  | none => .error .utf8
  | some stderr =>
    match decodeUtf8 o.stdout with
    | none => .error .utf8
    | some stdout =>
      .ok { success := o.success
            stderr := stripTrailingNewlines stderr
            stdout := stripTrailingNewlines stdout }

/-- `res` is `orig` with all (and only) trailing `'\n'`/`'\r'` characters
removed: `orig` is `res` followed by newline characters only, and `res` itself
does not end in a newline character. -/
def Stripped (orig res : RStr) : Prop :=
  (∃ junk, orig = res ++ junk ∧ ∀ c ∈ junk, c = '\n' ∨ c = '\r') ∧
  (∀ c, res.getLast? = some c → ¬(c = '\n' ∨ c = '\r'))

/-- Every call the code issues to its environment (the `docker` CLI, the
filesystem, process handles), recorded in order.  The constructors carry the
arguments of the corresponding call. -/
inductive Effect where
  | createTempDir
  | writeDockerfile (contents : RStr)
  | dockerBuild (tag : RStr)
  | freshCount (c : Nat)
  | dockerRun (name tag : RStr)
  | dockerInspect (id : RStr)
  | createTempFile
  | writeTempFile (path contents : RStr)
  | dockerCp (src dst : RStr)
  | dockerExec (id : RStr) (argv : List RStr)
  | spawnExec (id : RStr) (argv : List RStr)
  | eprintLine (s : RStr)
  | dockerRm (id : RStr)
  | killChild
deriving DecidableEq, Repr

/-- Whether the call that issued this effect waits for the external command to
exit before returning.  Every `Command::output()` and `Command::status()` call
in container.rs runs its command to completion; in particular the
`docker rm -f` issued by `Drop for Inner` goes through `Command::status()`
(line 260) and therefore waits.  Only `Command::spawn` (in `Container::spawn`)
returns without waiting. -/
def Effect.blocksUntilExit : Effect → Bool
  | dockerBuild _ => true
  | dockerRun _ _ => true
  | dockerInspect _ => true
  | dockerCp _ _ => true
  | dockerExec _ _ => true
  | dockerRm _ => true
  | spawnExec _ _ => false
  | _ => false

/-- The decimal digit characters. -/
def digitChar (d : Nat) : Char := Char.ofNat (48 + d)

/-- Little-endian decimal digits of `n`, with explicit fuel (any fuel at
least `n` is enough, since the argument shrinks by a factor of ten). -/
def natDigitsAux : Nat → Nat → List Char
  | _, 0 => []
  | n, fuel + 1 => if n = 0 then [] else digitChar (n % 10) :: natDigitsAux (n / 10) fuel

/-- Decimal rendering of a `usize`: the `Display` implementation used for
`pid` and `count` by the `format!` at line 49. -/
def natRepr (n : Nat) : RStr :=
  if n = 0 then ['0'] else (natDigitsAux n n).reverse

/-- The value of `env!("CARGO_PKG_NAME")` for the `dns-test` package. -/
def PACKAGE_NAME : RStr := "dns-test".data

/-- Modelled from the spec: the `Implementation` type (the software profile)
lives at the crate root, outside the given sources; the spec describes it as a
closed enumeration whose values render to a display name, map
deterministically to a build-context descriptor (a Dockerfile), and own a
per-profile one-time gate (`once()`).  container.rs uses exactly those three
capabilities, so a profile is modelled by its two strings; the one-time gate
of the (fixed) profile under consideration is the `gateDone` flag of
`GState`. -/
structure Implementation where
  display : RStr
  dockerfile : RStr
deriving DecidableEq, Repr

/-- The process-global mutable state `Container::run` touches, for one fixed
profile: whether that profile's `Once` has fired, and the static `COUNT` of
`container_count` (lines 155-159). -/
structure GState where
  gateDone : Bool
  counter : Nat
deriving DecidableEq, Repr

/-- `container_count` (lines 155-159): `COUNT.fetch_add(1, Relaxed)` returns
the previous value and increments. -/
def containerCount (st : GState) : Nat × GState :=
  (st.counter, { st with counter := st.counter + 1 })

/-- The container name computed at lines 47-49:
`format!("PACKAGE_NAME-implementation-pid-count")`. -/
def mkName (impl : Implementation) (pid count : Nat) : RStr :=
  PACKAGE_NAME ++ '-' :: impl.display ++ '-' :: natRepr pid ++ '-' :: natRepr count

/-- The image tag computed at line 28: `format!("PACKAGE_NAME-implementation")`. -/
def imageTag (impl : Implementation) : RStr :=
  PACKAGE_NAME ++ '-' :: impl.display

/-- The message of the error produced by `checked_output` (line 227),
`format!` of a backquoted command and " failed"; the `Debug` rendering of the
`Command` is abstracted as its program and arguments joined by spaces. -/
def cmdFailedMsg (argv : List RStr) : RStr :=
  '\x60' :: (List.intercalate " ".data argv) ++ "\x60 failed".data

/-- `checked_output` (lines 222-229): run the command to completion and fail
on a spawn error or a non-success exit status.  The oracle `res` is the
command's `output()` result (`none` = spawn error). -/
def checkedOutput (argv : List RStr) (res : Option ProcOutput) : Except Error ProcOutput :=
  match res with
  | none => .error .io
  | some o => if o.success then .ok o else .error (.msg (cmdFailedMsg argv))

/-- Whether `c` is ASCII whitespace; the fragment of Rust's
`char::is_whitespace` relevant to engine output (`str::trim` at line 246). -/
def isWs (c : Char) : Bool :=
  c = ' ' || c = '\t' || c = '\n' || c = '\r' || c = '\x0b' || c = '\x0c'

/-- `str::trim`: remove leading and trailing whitespace. -/
def rustTrim (s : RStr) : RStr :=
  ((s.dropWhile isWs).reverse.dropWhile isWs).reverse

/-- An IPv4 address (`std::net::Ipv4Addr`): four octets. -/
structure Ipv4 where
  a : Nat
  b : Nat
  c : Nat
  d : Nat
deriving DecidableEq, Repr

/-- Numeric value of a decimal digit character. -/
def digitVal (c : Char) : Nat := c.toNat - 48

/-- One octet of Rust's `Ipv4Addr::from_str` grammar: a non-empty run of
decimal digits, no leading zero (unless the octet is exactly "0"), value at
most 255. -/
def parseOctet (p : RStr) : Option Nat :=
  if p.isEmpty then none
  else if !(p.all Char.isDigit) then none
  else if p.head? = some '0' && p.length != 1 then none
  else
    let v := p.foldl (fun acc c => acc * 10 + digitVal c) 0
    if v ≤ 255 then some v else none

/-- Rust's `Ipv4Addr::from_str`: exactly four octets separated by `'.'`. -/
def parseIpv4 (s : RStr) : Option Ipv4 :=
  match s.splitOn '.' with
  | [p1, p2, p3, p4] =>
    match parseOctet p1, parseOctet p2, parseOctet p3, parseOctet p4 with
    | some a, some b, some c, some d => some ⟨a, b, c, d⟩
    | _, _, _, _ => none
  | _ => none

/-- The `-f` format argument passed to `docker inspect` at line 237. -/
def inspectFormatArg : RStr :=
  "\x7b\x7brange.NetworkSettings.Networks\x7d\x7d\x7b\x7b.IPAddress\x7d\x7d\x7b\x7bend\x7d\x7d".data

/-- `get_ipv4_addr` (lines 231-249): run `docker inspect -f … container_id`
to completion, fail on spawn error or non-success exit, decode stdout as
UTF-8, trim whitespace, parse as IPv4.  The oracle `res` is the inspect
command's result (`none` = spawn error). -/
def getIpv4Addr (containerId : RStr) (res : Option ProcOutput) :
    Except Error Ipv4 × List Effect :=
  let argv := ["docker".data, "inspect".data, "-f".data, inspectFormatArg, containerId]
  let tr := [Effect.dockerInspect containerId]
  match res with
  | none => (.error .io, tr)
  | some o =>
    if !o.success then (.error (.msg (cmdFailedMsg argv)), tr)
    else
      match decodeUtf8 o.stdout with
      | none => (.error .utf8, tr)
      | some s =>
        match parseIpv4 (rustTrim s) with
        | none => (.error .addrParse, tr)
        | some addr => (.ok addr, tr)

/-- One escaped character of Rust's `Debug` rendering of a `str` (the escapes
relevant to command arguments). -/
def debugEscapeChar (c : Char) : RStr :=
  if c = '"' then ['\\', '"']
  else if c = '\\' then ['\\', '\\']
  else if c = '\n' then ['\\', 'n']
  else if c = '\r' then ['\\', 'r']
  else if c = '\t' then ['\\', 't']
  else [c]

/-- Rust's `Debug` rendering of one `&str`: quoted and escaped. -/
def debugStr (s : RStr) : RStr :=
  '"' :: (s.flatMap debugEscapeChar) ++ ['"']

/-- Rust's `Debug` rendering of a `&[&str]`, as produced by the
format specifier at lines 113 and 134. -/
def debugArgv (argv : List RStr) : RStr :=
  '[' :: (List.intercalate ", ".data (argv.map debugStr)) ++ [']']

/-- The error message built at lines 113 and 134:
`format!` of "[name] backquoted-argv failed". -/
def execFailedMsg (name : RStr) (argv : List RStr) : RStr :=
  '[' :: name ++ "] \x60".data ++ debugArgv argv ++ "\x60 failed".data

/-- `Container::output` (lines 90-97): `docker exec -t id argv`, run to
completion, then the `TryFrom` conversion.  Oracle `res`: `none` = spawn
failure. -/
def containerOutput (id : RStr) (argv : List RStr) (res : Option ProcOutput) :
    Except Error Output × List Effect :=
  (match res with
   | none => .error .io
   | some o => tryFromOutput o,
   [Effect.dockerExec id argv])

/-- `Container::stdout` (lines 101-115): run `Container::output`; on success
exit return only the stdout; otherwise print the captured streams to stderr
and return an error naming the container and the argv. -/
def containerStdout (name id : RStr) (argv : List RStr) (res : Option ProcOutput) :
    Except Error RStr × List Effect :=
  match containerOutput id argv res with
  | (.error e, tr) => (.error e, tr)
  | (.ok o, tr) =>
    if o.success then (.ok o.stdout, tr)
    else
      (.error (.msg (execFailedMsg name argv)),
       tr ++ [Effect.eprintLine ("STDOUT:\n".data ++ o.stdout ++ "\nSTDERR:\n".data ++ o.stderr)])

/-- `Container::status` (lines 117-125): `docker exec -t id argv` via
`Command::status`.  Oracle `res`: `none` = spawn error, otherwise the exit
status's `success()` flag. -/
def containerStatus (id : RStr) (argv : List RStr) (res : Option Bool) :
    Except Error Bool × List Effect :=
  (match res with
   | none => .error .io
   | some b => .ok b,
   [Effect.dockerExec id argv])

/-- `Container::status_ok` (lines 128-136): check the exit status and fail
with the container name and argv otherwise. -/
def containerStatusOk (name id : RStr) (argv : List RStr) (res : Option Bool) :
    Except Error Unit × List Effect :=
  match containerStatus id argv res with
  | (.error e, tr) => (.error e, tr)
  | (.ok true, tr) => (.ok (), tr)
  | (.ok false, tr) => (.error (.msg (execFailedMsg name argv)), tr)

/-- Oracle for one `Container::cp` call. -/
structure CpEnv where
  tempFile : Option RStr
  writeOk : Bool
  cpResult : Option ProcOutput
  chmodStatus : Option Bool
deriving DecidableEq, Repr

/-- `Container::cp` (lines 71-87): create a host-side temp file, write the
contents into it, `docker cp` it to `id:path` through `checked_output`, then
`chmod 666` the destination through `status_ok`.  Each step's `?` aborts the
sequence on failure. -/
def containerCp (name id pathInContainer fileContents : RStr) (env : CpEnv) :
    Except Error Unit × List Effect :=
  match env.tempFile with
  | none => (.error .io, [Effect.createTempFile])
  | some tmpPath =>
    if !env.writeOk then
      (.error .io, [Effect.createTempFile, Effect.writeTempFile tmpPath fileContents])
    else
      let destPath := id ++ ':' :: pathInContainer
      let cpArgv := ["docker".data, "cp".data, tmpPath, destPath]
      let tr0 := [Effect.createTempFile, Effect.writeTempFile tmpPath fileContents,
                  Effect.dockerCp tmpPath destPath]
      match checkedOutput cpArgv env.cpResult with
      | .error e => (.error e, tr0)
      | .ok _ =>
        match containerStatusOk name id ["chmod".data, "666".data, pathInContainer]
            env.chmodStatus with
        | (st, tr1) => (st, tr0 ++ tr1)

/-- `Drop for Inner` (lines 252-262): issue `docker rm -f id` through
`Command::status()` — which runs the command to completion — and discard the
result with `let _ = …`.  The oracle (the status result, `none` = spawn
error) is ignored entirely: nothing is propagated. -/
def dropInner (id : RStr) (statusResult : Option Bool) : List Effect :=
  [Effect.dockerRm id]

/-- The underlying `std::process::Child`, reduced to its observable
behaviour: the result `wait_with_output` would produce (`none` = io error). -/
structure ProcHandle where
  waitResult : Option ProcOutput
deriving DecidableEq, Repr

/-- The crate's `Child` (lines 173-176): an inner process handle, consumed at
most once, plus (not modelled here, see the Arc model below) a retained
`Arc<Inner>` reference to the container. -/
structure Child where
  inner : Option ProcHandle
deriving DecidableEq, Repr

/-- `wait_with_output` followed by the `TryFrom` conversion (line 180-181). -/
def waitWithOutput (h : ProcHandle) : Except Error Output :=
  match h.waitResult with
  | none => .error .io
  | some po => tryFromOutput po

/-- Outcome of `Child::wait`: the `expect("unreachable")` panics when the
inner handle was already taken. -/
inductive WaitOutcome where
  | panicked
  | returned (r : Except Error Output)
deriving Repr

/-- `Child::wait` (lines 179-182): `self.inner.take()` (panicking if absent),
wait for the output, convert.  `wait` takes `self` by value, so the state it
leaves behind (on which `Drop` will run) has `inner = none`. -/
def childWait (c : Child) : WaitOutcome × Child :=
  match c.inner with
  | none => (.panicked, { inner := none })
  | some h => (.returned (waitWithOutput h), { inner := none })

/-- `Drop for Child` (lines 185-191): if the inner handle is still present,
kill it; the kill result (`killOk`) is discarded with `let _ = …`. -/
def childDrop (c : Child) (killOk : Bool) : List Effect :=
  match c.inner with
  | none => []
  | some _ => [Effect.killChild]

/-- `Container::spawn` (lines 138-148): `docker exec -t id cmd` with piped
streams via `Command::spawn` (which does not wait); on success wrap the
handle in a `Child` whose `inner` is `Some` and which clones the `Arc`.
Oracle `res`: `none` = spawn error. -/
def containerSpawn (id : RStr) (argv : List RStr) (res : Option ProcHandle) :
    Except Error Child × List Effect :=
  (match res with
   | none => .error .io
   | some h => .ok { inner := some h },
   [Effect.spawnExec id argv])

/-- An event in the life of the handles sharing one `Arc<Inner>`: a handle is
cloned (`Container`'s `Arc` clone in `Container::spawn`, or a clone of the
`Container` itself), or a handle (a `Container` or a `Child`) is dropped,
releasing its reference. -/
inductive ArcOp where
  | clone
  | release
deriving DecidableEq, Repr

/-- Reference-count transition of one `ArcOp`. -/
def arcNext (rc : Nat) : ArcOp → Nat
  | .clone => rc + 1
  | .release => rc - 1

/-- Modelled from std's documented `Arc` semantics, which container.rs relies
on: a clone increments the strong count; a release decrements it; the drop
that brings the count to zero runs `Drop for Inner` (`dropInner`). -/
def arcStep (id : RStr) (rc : Nat) : ArcOp → Nat × List Effect
  | .clone => (rc + 1, [])
  | .release => (rc - 1, if rc = 1 then dropInner id none else [])

/-- Run a sequence of clone/release events against one shared `Inner`. -/
def arcRun (id : RStr) : Nat → List ArcOp → Nat × List Effect
  | rc, [] => (rc, [])
  | rc, op :: ops =>
    let s := arcStep id rc op
    let rest := arcRun id s.1 ops
    (rest.1, s.2 ++ rest.2)

/-- A sequence of events is wellformed when every event is performed by a
live handle: the reference count before it is positive. -/
def arcWF : Nat → List ArcOp → Bool
  | _, [] => true
  | rc, op :: ops => decide (0 < rc) && arcWF (arcNext rc op) ops

/-- Oracle for one `Container::run` call. -/
structure RunEnv where
  tempDirOk : Bool
  writeOk : Bool
  buildOutput : Option ProcOutput
  runOutput : Option ProcOutput
  inspectOutput : Option ProcOutput
deriving DecidableEq, Repr

/-- The `Inner` struct (lines 161-166). -/
structure Inner where
  name : RStr
  id : RStr
  ipv4Addr : Ipv4
deriving DecidableEq, Repr

/-- Result of `Container::run`: success (the `Inner` placed in the `Arc`), a
propagated error, or a panic (the `unwrap`/`assert!` inside the build
closure). -/
inductive RunResult where
  | ok (inner : Inner)
  | err (e : Error)
  | panicked
deriving DecidableEq, Repr

/-- The argv of the `docker run` command built at lines 46-54. -/
def dockerRunArgv (name tag : RStr) : List RStr :=
  ["docker".data, "run".data, "--rm".data, "--detach".data, "--name".data, name,
   "-it".data, tag, "sleep".data, "infinity".data]

/-- The tail of `Container::run` after the image-build gate (lines 46-68):
draw a fresh count, build the name, `docker run --rm --detach --name name -it
tag sleep infinity` through `checked_output` and the `TryFrom` conversion,
take the container id from its stdout, query the IPv4 address, assemble
`Inner`.  `tr` is the trace accumulated so far. -/
def containerRunAfterBuild (impl : Implementation) (pid : Nat) (env : RunEnv)
    (st : GState) (tr : List Effect) : RunResult × GState × List Effect :=
  let cs := containerCount st
  let name := mkName impl pid cs.1
  let tr1 := tr ++ [Effect.freshCount cs.1, Effect.dockerRun name (imageTag impl)]
  match checkedOutput (dockerRunArgv name (imageTag impl)) env.runOutput with
  | .error e => (.err e, cs.2, tr1)
  | .ok po =>
    match tryFromOutput po with
    | .error e => (.err e, cs.2, tr1)
    | .ok out =>
      match getIpv4Addr out.stdout env.inspectOutput with
      | (.error e, tr2) => (.err e, cs.2, tr1 ++ tr2)
      | (.ok addr, tr2) =>
        (.ok { name := name, id := out.stdout, ipv4Addr := addr }, cs.2, tr1 ++ tr2)

/-- `Container::run` (lines 21-69).  A fresh temporary directory is created
and the profile's Dockerfile written into it on every call (lines 23-26,
before the gate); only the `docker build` invocation (line 37) sits inside
the profile's `call_once` (line 36).  A build spawn error (`unwrap`) or a
non-success build status (`assert!`) panics; std's `Once` poisoning is
modelled as the gate being consumed (no claim exercises a call after a build
panic). -/
def containerRun (impl : Implementation) (pid : Nat) (env : RunEnv) (st : GState) :
    RunResult × GState × List Effect :=
  if !env.tempDirOk then (.err .io, st, [Effect.createTempDir])
  else if !env.writeOk then
    (.err .io, st, [Effect.createTempDir, Effect.writeDockerfile impl.dockerfile])
  else
    let renderTr := [Effect.createTempDir, Effect.writeDockerfile impl.dockerfile]
    if st.gateDone then containerRunAfterBuild impl pid env st renderTr
    else
      let st1 := { st with gateDone := true }
      let trB := renderTr ++ [Effect.dockerBuild (imageTag impl)]
      match env.buildOutput with
      | none => (.panicked, st1, trB)
      | some o =>
        if !o.success then (.panicked, st1, trB)
        else containerRunAfterBuild impl pid env st1 trB

/-- A sequence of `Container::run` calls for one profile within one process:
per-call results and traces, plus the final global state. -/
def runMany (impl : Implementation) (pid : Nat) :
    List RunEnv → GState → List (RunResult × List Effect) × GState
  | [], st => ([], st)
  | env :: envs, st =>
    let r := containerRun impl pid env st
    let rest := runMany impl pid envs r.2.1
    ((r.1, r.2.2) :: rest.1, rest.2)

/-- Whether an effect is the `docker build` invocation (step 2 of the image
build). -/
def isBuildEffect : Effect → Bool
  | .dockerBuild _ => true
  | _ => false

/-- Whether an effect is the creation of the fresh build-context directory
(the start of step 1 of the image build). -/
def isRenderEffect : Effect → Bool
  | .createTempDir => true
  | _ => false

/-- Whether an effect is a `docker cp`. -/
def isCpEffect : Effect → Bool
  | .dockerCp _ _ => true
  | _ => false

/-- Whether an effect is a `docker exec` (in `Container::cp`, the chmod). -/
def isExecEffect : Effect → Bool
  | .dockerExec _ _ => true
  | _ => false

/-- Whether an effect is the removal request `docker rm -f`. -/
def isRmEffect : Effect → Bool
  | .dockerRm _ => true
  | _ => false

/-- The joined trace of a list of per-call results. -/
def allTraces (out : List (RunResult × List Effect)) : List Effect :=
  (out.map Prod.snd).flatten

/-- ASCII bytes of a string (its UTF-8 encoding, for ASCII content). -/
def asciiBytes (s : String) : Bytes := s.data.map Char.toNat

/-- A concrete all-success oracle for `Container::run`: the build succeeds,
`docker run` prints a container id, `docker inspect` prints an address. -/
def okRunEnv : RunEnv :=
  { tempDirOk := true
    writeOk := true
    buildOutput := some { success := true, stdout := [], stderr := [] }
    runOutput := some { success := true, stdout := asciiBytes "abc123\n", stderr := [] }
    inspectOutput := some { success := true, stdout := asciiBytes "172.17.0.2\n", stderr := [] } }

/-- A concrete profile for counterexamples and witnesses. -/
def unboundImpl : Implementation :=
  { display := "unbound".data, dockerfile := "FROM fedora".data }

/-- A concrete process output with a non-success exit status. -/
def poFail : ProcOutput :=
  { success := false, stdout := asciiBytes "nope\n", stderr := asciiBytes "bad" }

/-- The converted form of `poFail`. -/
def outFail : Output := { success := false, stderr := "bad".data, stdout := "nope".data }

/-- A concrete container name for witnesses. -/
def wName : RStr := "dns-test-unbound-7-0".data

/-- A concrete container id for witnesses. -/
def wId : RStr := "abc123".data

/-- A concrete argv for witnesses. -/
def wArgv : List RStr := ["dig".data, "example.com".data]

/-- A concrete in-container path for witnesses. -/
def wPath : RStr := "/tmp/somefile".data

/-- Concrete file contents for witnesses. -/
def wContents : RStr := "hello".data

/-- A concrete process handle whose wait succeeds. -/
def wHandle : ProcHandle :=
  { waitResult := some { success := true, stdout := asciiBytes "out\n", stderr := [] } }

/-- A concrete spawned child. -/
def wChild : Child := { inner := some wHandle }

/-- A concrete successful `docker cp` output. -/
def cpOkOutput : ProcOutput := { success := true, stdout := [], stderr := [] }

/-- A concrete all-success oracle for `Container::cp`. -/
def cpEnvOk : CpEnv :=
  { tempFile := some "/tmp/t0".data
    writeOk := true
    cpResult := some cpOkOutput
    chmodStatus := some true }

/-- The inner value of a successful run result (junk value otherwise). -/
def innerOf : RunResult → Inner
  | .ok inner => inner
  | _ => { name := [], id := [], ipv4Addr := { a := 0, b := 0, c := 0, d := 0 } }

/-- The per-call outputs of two all-success `Container::run` calls from a
fresh process state. -/
def c5Out : List (RunResult × List Effect) :=
  (runMany unboundImpl 7 [okRunEnv, okRunEnv] { gateDone := false, counter := 0 }).1

/-- The first of the two calls of `c5Out`. -/
def c5Call0 : RunResult × List Effect := c5Out.headD (RunResult.panicked, [])

/-- The second of the two calls of `c5Out`. -/
def c5Call1 : RunResult × List Effect := (c5Out.drop 1).headD (RunResult.panicked, [])

/-- The `Inner` of the first call of `c5Out`. -/
def c5Inner0 : Inner := innerOf c5Call0.1

/-- The `Inner` of the second call of `c5Out`. -/
def c5Inner1 : Inner := innerOf c5Call1.1

/-- A concrete handle history: the container spawns a child (clone), the
container handle is dropped, then the child is dropped. -/
def c9Ops : List ArcOp := [ArcOp.clone, ArcOp.release, ArcOp.release]

/-- The chmod argv used inside `Container::cp`. -/
def chmodArgv (path : RStr) : List RStr := ["chmod".data, "666".data, path]

/-- 1 while the profile's one-time gate can still fire, 0 once it has. -/
def gateWeight (st : GState) : Nat := if st.gateDone then 0 else 1

/-- A concrete process output whose streams end in newline noise. -/
def po0 : ProcOutput :=
  { success := true, stdout := asciiBytes "hi\r\n", stderr := asciiBytes "err\n" }

/-- The decoded stdout of `po0`. -/
def so0 : RStr := "hi\r\n".data

/-- The decoded stderr of `po0`. -/
def se0 : RStr := "err\n".data

/-- The converted form of `po0`. -/
def out0 : Output := { success := true, stderr := "err".data, stdout := "hi".data }

/-- A concrete successful `docker inspect` result. -/
def inspOk : Option ProcOutput :=
  some { success := true, stdout := asciiBytes "  172.17.0.2\n", stderr := [] }

theorem head?_dropWhile_false {p : Char → Bool} :
    ∀ (l : RStr) (c : Char), (l.dropWhile p).head? = some c → p c = false := by
  intro l
  induction l with
  | nil => intro c h; simp [List.dropWhile] at h
  | cons a l ih =>
    intro c h
    by_cases hp : p a
    · rw [List.dropWhile_cons_of_pos hp] at h
      exact ih c h
    · rw [List.dropWhile_cons_of_neg hp] at h
      simp at h
      subst h
      simpa using hp

theorem stripped_stripTrailingNewlines (s : RStr) :
    Stripped s (stripTrailingNewlines s) := by
  constructor
  · refine ⟨(s.reverse.takeWhile isTrailingNl).reverse, ?_, ?_⟩
    · conv_lhs => rw [← s.reverse_reverse, ← List.takeWhile_append_dropWhile (p := isTrailingNl) (l := s.reverse)]
      rw [List.reverse_append]
      rfl
    · intro c hc
      rw [List.mem_reverse] at hc
      have := List.mem_takeWhile_imp hc
      simpa [isTrailingNl, Char.ext_iff] using this
  · intro c hc
    rw [stripTrailingNewlines, List.getLast?_reverse] at hc
    have := head?_dropWhile_false (p := isTrailingNl) s.reverse c hc
    simpa [isTrailingNl, Char.ext_iff] using this

/-- C1: converting a completed process output strips all trailing `'\n'`/`'\r'`
characters from both captured streams, and errors exactly when either stream is
not valid UTF-8. -/
theorem c1_output_conversion (po : ProcOutput) :
    ((tryFromOutput po).isOk ↔
      (decodeUtf8 po.stdout).isSome ∧ (decodeUtf8 po.stderr).isSome) ∧
    (∀ out so se, tryFromOutput po = .ok out →
        decodeUtf8 po.stdout = some so → decodeUtf8 po.stderr = some se →
        out.success = po.success ∧ Stripped so out.stdout ∧ Stripped se out.stderr) := by
  constructor
  · unfold tryFromOutput
    rcases h1 : decodeUtf8 po.stderr with _ | se <;>
      rcases h2 : decodeUtf8 po.stdout with _ | so <;>
        simp [Except.isOk, Except.toBool]
  · intro out so se hok h2 h1
    unfold tryFromOutput at hok
    rw [h1, h2] at hok
    simp only [Except.ok.injEq] at hok
    subst hok
    exact ⟨rfl, stripped_stripTrailingNewlines so, stripped_stripTrailingNewlines se⟩

theorem getIpv4Addr_trace (id : RStr) (res : Option ProcOutput) :
    (getIpv4Addr id res).2 = [Effect.dockerInspect id] := by
  rcases res with _ | o
  · rfl
  · cases hs : o.success
    · simp [getIpv4Addr, hs]
    · rcases hd : decodeUtf8 o.stdout with _ | s
      · simp [getIpv4Addr, hs, hd]
      · rcases hp : parseIpv4 (rustTrim s) with _ | addr <;>
          simp [getIpv4Addr, hs, hd, hp]

/-- C3: resolveAddress issues exactly one query (the `docker inspect` for the
given identifier); its value is the IPv4 parse of the whitespace-trimmed
UTF-8 decoding of the query's stdout; and it errors exactly when the query
fails to spawn, exits non-success, prints non-UTF-8 output, or the trimmed
result does not parse as IPv4. -/
theorem c3_resolve_address (id : RStr) (res : Option ProcOutput) :
    (getIpv4Addr id res).2 = [Effect.dockerInspect id] ∧
    (∀ addr, (getIpv4Addr id res).1 = .ok addr ↔
      ∃ o s, res = some o ∧ o.success = true ∧ decodeUtf8 o.stdout = some s ∧
        parseIpv4 (rustTrim s) = some addr) ∧
    ((getIpv4Addr id res).1.isOk = false ↔
      (res = none ∨ ∃ o, res = some o ∧
        (o.success = false ∨ decodeUtf8 o.stdout = none ∨
          ∃ s, decodeUtf8 o.stdout = some s ∧ parseIpv4 (rustTrim s) = none))) := by
  refine ⟨getIpv4Addr_trace id res, ?_, ?_⟩ <;>
  · rcases res with _ | o
    · simp [getIpv4Addr, Except.isOk, Except.toBool]
    · cases hs : o.success
      · simp [getIpv4Addr, hs, Except.isOk, Except.toBool]
      · rcases hd : decodeUtf8 o.stdout with _ | s
        · simp [getIpv4Addr, hs, hd, Except.isOk, Except.toBool]
        · rcases hp : parseIpv4 (rustTrim s) with _ | addr <;>
            simp [getIpv4Addr, hs, hd, hp, Except.isOk, Except.toBool]

/-- C4: the removal issued on the final release (`Drop for Inner`) swallows
every outcome — the status oracle never influences the behaviour and nothing
is returned to any caller — but, contrary to the claim (and to the code's own
comment), the removal command is issued through `Command::status()`, which
waits for it to finish: the effect blocks the releasing thread until the
removal command exits. -/
theorem c4_drop_teardown :
    (∀ (id : RStr) (r1 r2 : Option Bool), dropInner id r1 = dropInner id r2) ∧
    dropInner "c0".data none = [Effect.dockerRm "c0".data] ∧
    Effect.blocksUntilExit (Effect.dockerRm "c0".data) = true :=
  ⟨fun _ _ _ => rfl, rfl, rfl⟩

/-- C6: execChecked (`Container::stdout`) returns exactly the converted
stdout when the exit status is success; on a non-success exit it returns an
`Error` value (no panic) whose message contains both the container name and
the Debug rendering of the argv, and the trace shows the captured stdout and
stderr printed to diagnostic output. -/
theorem c6_exec_checked (name id : RStr) (argv : List RStr) (po : ProcOutput)
    (out : Output) (hconv : tryFromOutput po = .ok out) :
    (out.success = true →
      containerStdout name id argv (some po) =
        (.ok out.stdout, [Effect.dockerExec id argv])) ∧
    (out.success = false →
      containerStdout name id argv (some po) =
        (.error (.msg (execFailedMsg name argv)),
         [Effect.dockerExec id argv,
          Effect.eprintLine ("STDOUT:\n".data ++ out.stdout ++ "\nSTDERR:\n".data
            ++ out.stderr)]) ∧
      (∃ x y, execFailedMsg name argv = x ++ name ++ y) ∧
      (∃ x y, execFailedMsg name argv = x ++ debugArgv argv ++ y)) := by
  constructor
  · intro hsucc
    simp [containerStdout, containerOutput, hconv, hsucc]
  · intro hfail
    refine ⟨?_, ⟨['['], "] \x60".data ++ debugArgv argv ++ "\x60 failed".data, ?_⟩,
            ⟨'[' :: name ++ "] \x60".data, "\x60 failed".data, ?_⟩⟩
    · simp [containerStdout, containerOutput, hconv, hfail]
    · simp [execFailedMsg]
    · simp [execFailedMsg]

theorem c6_exec_checked_witness :
    tryFromOutput poFail = .ok outFail ∧ outFail.success = false ∧
    (containerStdout wName wId wArgv (some poFail) =
        (.error (.msg (execFailedMsg wName wArgv)),
         [Effect.dockerExec wId wArgv,
          Effect.eprintLine ("STDOUT:\n".data ++ outFail.stdout ++ "\nSTDERR:\n".data
            ++ outFail.stderr)]) ∧
      (∃ x y, execFailedMsg wName wArgv = x ++ wName ++ y) ∧
      (∃ x y, execFailedMsg wName wArgv = x ++ debugArgv wArgv ++ y)) :=
  ⟨rfl, rfl, (c6_exec_checked wName wId wArgv poFail outFail rfl).2 rfl⟩

/-- C8: the background-task handle's state machine.  With the inner process
handle present (Running), `wait` consumes it exactly once — it blocks for the
process output and returns the conversion, leaving a state whose drop kills
nothing (Completed) — while dropping the handle without waiting issues the
forced kill, whose outcome is ignored (Abandoned). -/
theorem c8_task_state_machine (c : Child) (h : ProcHandle) (k1 k2 : Bool)
    (hc : c.inner = some h) :
    childWait c = (.returned (waitWithOutput h), { inner := none }) ∧
    childDrop (childWait c).2 k1 = [] ∧
    childDrop c k1 = [Effect.killChild] ∧
    childDrop c k1 = childDrop c k2 := by
  have hw : childWait c = (.returned (waitWithOutput h), { inner := none }) := by
    simp [childWait, hc]
  exact ⟨hw, by simp [hw, childDrop], by simp [childDrop, hc], rfl⟩

theorem c8_task_state_machine_witness :
    wChild.inner = some wHandle ∧
    (childWait wChild = (.returned (waitWithOutput wHandle), { inner := none }) ∧
     childDrop (childWait wChild).2 true = [] ∧
     childDrop wChild true = [Effect.killChild] ∧
     childDrop wChild true = childDrop wChild false) :=
  ⟨rfl, c8_task_state_machine wChild wHandle true false rfl⟩

/-- C10: a `Child` produced by `Container::spawn` always has its inner
process handle present, so the `expect("unreachable")` branch inside `wait`
cannot be taken on it; and after `wait` has consumed the handle, the drop of
the task performs no kill. -/
theorem c10_wait_reachable (id : RStr) (argv : List RStr) (res : Option ProcHandle)
    (c : Child) (k : Bool) (hok : (containerSpawn id argv res).1 = .ok c) :
    c.inner.isSome = true ∧
    (childWait c).1 ≠ .panicked ∧
    childDrop (childWait c).2 k = [] := by
  rcases res with _ | h
  · simp [containerSpawn] at hok
  · simp only [containerSpawn] at hok
    have hc : c = { inner := some h } := by
      cases hok
      rfl
    subst hc
    refine ⟨rfl, ?_, rfl⟩
    simp [childWait]

theorem c10_wait_reachable_witness :
    (containerSpawn wId wArgv (some wHandle)).1 = .ok { inner := some wHandle } ∧
    (({ inner := some wHandle } : Child).inner.isSome = true ∧
     (childWait { inner := some wHandle }).1 ≠ .panicked ∧
     childDrop (childWait { inner := some wHandle }).2 true = []) :=
  ⟨rfl, c10_wait_reachable wId wArgv (some wHandle) { inner := some wHandle } true rfl⟩

theorem arcWF_append (l1 : List ArcOp) : ∀ (rc : Nat) (l2 : List ArcOp),
    arcWF rc (l1 ++ l2) = true → arcWF rc l1 = true := by
  induction l1 with
  | nil => intro rc l2 h; rfl
  | cons op ops ih =>
    intro rc l2 h
    simp only [List.cons_append, arcWF, Bool.and_eq_true] at h ⊢
    exact ⟨h.1, ih _ _ h.2⟩

theorem countRm_arcRun (id : RStr) : ∀ (ops : List ArcOp) (rc : Nat), 0 < rc →
    arcWF rc ops = true →
    (arcRun id rc ops).2.countP isRmEffect =
      if (arcRun id rc ops).1 = 0 then 1 else 0 := by
  intro ops
  induction ops with
  | nil =>
    intro rc hrc hw
    simp only [arcRun, List.countP_nil]
    rw [if_neg (by omega)]
  | cons op ops ih =>
    intro rc hrc hw
    simp only [arcWF, Bool.and_eq_true, decide_eq_true_eq] at hw
    cases op with
    | clone =>
      simpa only [arcRun, arcStep, List.nil_append] using
        ih (rc + 1) (by omega) (by simpa [arcNext] using hw.2)
    | release =>
      by_cases h1 : rc = 1
      · subst h1
        cases ops with
        | nil => simp [arcRun, arcStep, dropInner, isRmEffect]
        | cons op' ops' =>
          exfalso
          have h2 := hw.2
          simp [arcNext, arcWF] at h2
      · simpa only [arcRun, arcStep, if_neg h1, List.nil_append] using
          ih (rc - 1) (by omega) (by simpa [arcNext] using hw.2)

/-- C9: across any wellformed history of handle clones and releases starting
from the single handle made at creation, the removal request for the
sandbox's identifier is issued at most once; it is issued exactly when the
reference count has reached zero; and along any prefix after which some
handle (container or background task) is still live, no removal has been
issued. -/
theorem c9_teardown_once (id : RStr) (ops : List ArcOp) (hw : arcWF 1 ops = true) :
    (arcRun id 1 ops).2.countP isRmEffect ≤ 1 ∧
    ((arcRun id 1 ops).2.countP isRmEffect = 1 ↔ (arcRun id 1 ops).1 = 0) ∧
    (∀ pre suf, ops = pre ++ suf → 0 < (arcRun id 1 pre).1 →
      (arcRun id 1 pre).2.countP isRmEffect = 0) := by
  have main := countRm_arcRun id ops 1 (by omega) hw
  refine ⟨?_, ?_, ?_⟩
  · rw [main]; split <;> omega
  · rw [main]; split
    · simp_all
    · simp_all
  · intro pre suf hsplit hpos
    have hwpre : arcWF 1 pre = true := arcWF_append pre 1 suf (hsplit ▸ hw)
    rw [countRm_arcRun id pre 1 (by omega) hwpre, if_neg (by omega)]

theorem c9_teardown_once_witness :
    arcWF 1 c9Ops = true ∧
    ((arcRun "c0".data 1 c9Ops).2.countP isRmEffect ≤ 1 ∧
     ((arcRun "c0".data 1 c9Ops).2.countP isRmEffect = 1 ↔
        (arcRun "c0".data 1 c9Ops).1 = 0) ∧
     (∀ pre suf, c9Ops = pre ++ suf → 0 < (arcRun "c0".data 1 pre).1 →
        (arcRun "c0".data 1 pre).2.countP isRmEffect = 0)) :=
  ⟨rfl, c9_teardown_once "c0".data c9Ops rfl⟩

/-- C7: copyFile writes the contents to a host-side temporary file, then
performs the two checked operations in order — `docker cp` into the sandbox,
then `chmod 666` — aborting with an error, without retrying and without
performing the later operations, as soon as any step fails. -/
theorem c7_copy_file (name id path contents : RStr) (env : CpEnv) :
    ((containerCp name id path contents env).2.countP isCpEffect ≤ 1 ∧
     (containerCp name id path contents env).2.countP isExecEffect ≤ 1) ∧
    (env.tempFile = none →
      containerCp name id path contents env = (.error .io, [Effect.createTempFile])) ∧
    (∀ p, env.tempFile = some p → env.writeOk = false →
      containerCp name id path contents env =
        (.error .io, [Effect.createTempFile, Effect.writeTempFile p contents])) ∧
    (∀ p, env.tempFile = some p → env.writeOk = true →
      ((∀ o, env.cpResult = some o → o.success = false) →
        (∃ e, (containerCp name id path contents env).1 = .error e) ∧
        (containerCp name id path contents env).2 =
          [Effect.createTempFile, Effect.writeTempFile p contents,
           Effect.dockerCp p (id ++ ':' :: path)]) ∧
      (∀ o, env.cpResult = some o → o.success = true →
        (containerCp name id path contents env).2 =
          [Effect.createTempFile, Effect.writeTempFile p contents,
           Effect.dockerCp p (id ++ ':' :: path),
           Effect.dockerExec id (chmodArgv path)] ∧
        (env.chmodStatus = some true →
          (containerCp name id path contents env).1 = .ok ()) ∧
        (env.chmodStatus = none →
          (containerCp name id path contents env).1 = .error .io) ∧
        (env.chmodStatus = some false →
          (containerCp name id path contents env).1 =
            .error (.msg (execFailedMsg name (chmodArgv path)))))) := by
  obtain ⟨tf, wOk, cpR, chS⟩ := env
  refine ⟨?_, ?_, ?_, ?_⟩
  · rcases tf with _ | p
    · simp [containerCp, isCpEffect, isExecEffect]
    · cases wOk
      · simp [containerCp, isCpEffect, isExecEffect]
      · rcases cpR with _ | o
        · simp [containerCp, checkedOutput, isCpEffect, isExecEffect]
        · cases ho : o.success
          · simp [containerCp, checkedOutput, ho, isCpEffect, isExecEffect]
          · rcases chS with _ | b
            · simp [containerCp, checkedOutput, ho, containerStatusOk,
                containerStatus, isCpEffect, isExecEffect]
            · cases b <;>
                simp [containerCp, checkedOutput, ho, containerStatusOk,
                  containerStatus, isCpEffect, isExecEffect]
  · intro h
    subst h
    simp [containerCp]
  · intro p hp hw
    subst hp
    subst hw
    simp [containerCp]
  · intro p hp hw
    subst hp
    subst hw
    constructor
    · intro hfail
      rcases cpR with _ | o
      · exact ⟨⟨.io, rfl⟩, rfl⟩
      · have ho : o.success = false := hfail o rfl
        simp [containerCp, checkedOutput, ho]
    · intro o ho hsucc
      subst ho
      refine ⟨?_, ?_, ?_, ?_⟩
      · rcases chS with _ | b
        · simp [containerCp, checkedOutput, hsucc, containerStatusOk,
            containerStatus, chmodArgv]
        · cases b <;>
            simp [containerCp, checkedOutput, hsucc, containerStatusOk,
              containerStatus, chmodArgv]
      · intro hch
        subst hch
        simp [containerCp, checkedOutput, hsucc, containerStatusOk, containerStatus]
      · intro hch
        subst hch
        simp [containerCp, checkedOutput, hsucc, containerStatusOk, containerStatus]
      · intro hch
        subst hch
        simp [containerCp, checkedOutput, hsucc, containerStatusOk, containerStatus,
          chmodArgv]

theorem c7_copy_file_witness :
    cpEnvOk.tempFile = some "/tmp/t0".data ∧ cpEnvOk.writeOk = true ∧
    cpEnvOk.cpResult = some cpOkOutput ∧ cpOkOutput.success = true ∧
    cpEnvOk.chmodStatus = some true ∧
    (containerCp wName wId wPath wContents cpEnvOk).2 =
      [Effect.createTempFile, Effect.writeTempFile "/tmp/t0".data wContents,
       Effect.dockerCp "/tmp/t0".data (wId ++ ':' :: wPath),
       Effect.dockerExec wId (chmodArgv wPath)] ∧
    (containerCp wName wId wPath wContents cpEnvOk).1 = .ok () := by
  have h := ((c7_copy_file wName wId wPath wContents cpEnvOk).2.2.2
    "/tmp/t0".data rfl rfl).2 cpOkOutput rfl rfl
  exact ⟨rfl, rfl, rfl, rfl, rfl, h.1, h.2.1 rfl⟩

theorem containerRunAfterBuild_spec (impl : Implementation) (pid : Nat) (env : RunEnv)
    (st : GState) (tr : List Effect) :
    ∃ ext, (containerRunAfterBuild impl pid env st tr).2.2 = tr ++ ext ∧
      (∀ e ∈ ext, isBuildEffect e = false ∧ isRenderEffect e = false) ∧
      Effect.freshCount st.counter ∈ ext ∧
      (containerRunAfterBuild impl pid env st tr).2.1 =
        { gateDone := st.gateDone, counter := st.counter + 1 } ∧
      (∀ inner, (containerRunAfterBuild impl pid env st tr).1 = .ok inner →
        inner.name = mkName impl pid st.counter) := by
  rcases hro : env.runOutput with _ | po
  · refine ⟨[Effect.freshCount st.counter,
       Effect.dockerRun (mkName impl pid st.counter) (imageTag impl)], ?_, ?_, ?_, ?_, ?_⟩ <;>
      simp [containerRunAfterBuild, containerCount, checkedOutput, hro,
        isBuildEffect, isRenderEffect]
  · cases hpo : po.success
    · refine ⟨[Effect.freshCount st.counter,
         Effect.dockerRun (mkName impl pid st.counter) (imageTag impl)], ?_, ?_, ?_, ?_, ?_⟩ <;>
        simp [containerRunAfterBuild, containerCount, checkedOutput, hro, hpo,
          isBuildEffect, isRenderEffect]
    · rcases hc : tryFromOutput po with e | out
      · refine ⟨[Effect.freshCount st.counter,
           Effect.dockerRun (mkName impl pid st.counter) (imageTag impl)], ?_, ?_, ?_, ?_, ?_⟩ <;>
          simp [containerRunAfterBuild, containerCount, checkedOutput, hro, hpo, hc,
            isBuildEffect, isRenderEffect]
      · have htr2 := getIpv4Addr_trace out.stdout env.inspectOutput
        rcases ha : getIpv4Addr out.stdout env.inspectOutput with ⟨r2, tr2⟩
        rw [ha] at htr2
        simp only at htr2
        subst htr2
        cases r2 with
        | error e =>
          refine ⟨[Effect.freshCount st.counter,
             Effect.dockerRun (mkName impl pid st.counter) (imageTag impl),
             Effect.dockerInspect out.stdout], ?_, ?_, ?_, ?_, ?_⟩ <;>
            simp [containerRunAfterBuild, containerCount, checkedOutput, hro, hpo, hc, ha,
              isBuildEffect, isRenderEffect]
        | ok addr =>
          refine ⟨[Effect.freshCount st.counter,
             Effect.dockerRun (mkName impl pid st.counter) (imageTag impl),
             Effect.dockerInspect out.stdout], ?_, ?_, ?_, ?_, ?_⟩ <;>
            simp [containerRunAfterBuild, containerCount, checkedOutput, hro, hpo, hc, ha,
              isBuildEffect, isRenderEffect]

theorem containerRun_gate (impl : Implementation) (pid : Nat) (env : RunEnv) (st : GState) :
    (containerRun impl pid env st).2.2.countP isBuildEffect
        + gateWeight (containerRun impl pid env st).2.1 ≤ gateWeight st ∧
    (containerRun impl pid env st).2.2.countP isRenderEffect = 1 := by
  cases htd : env.tempDirOk
  · simp [containerRun, htd, isBuildEffect, isRenderEffect]
  · cases hwr : env.writeOk
    · simp [containerRun, htd, hwr, isBuildEffect, isRenderEffect]
    · cases hg : st.gateDone
      · rcases hb : env.buildOutput with _ | o
        · simp [containerRun, htd, hwr, hg, hb, gateWeight, isBuildEffect, isRenderEffect]
        · cases ho : o.success
          · simp [containerRun, htd, hwr, hg, hb, ho, gateWeight,
              isBuildEffect, isRenderEffect]
          · obtain ⟨ext, htr, hext, _, hst', _⟩ :=
              containerRunAfterBuild_spec impl pid env { gateDone := true, counter := st.counter }
                [Effect.createTempDir, Effect.writeDockerfile impl.dockerfile,
                 Effect.dockerBuild (imageTag impl)]
            have hb0 : ext.countP isBuildEffect = 0 :=
              List.countP_eq_zero.mpr (fun e he => by simp [(hext e he).1])
            have hr0 : ext.countP isRenderEffect = 0 :=
              List.countP_eq_zero.mpr (fun e he => by simp [(hext e he).2])
            have hrun : containerRun impl pid env st =
                containerRunAfterBuild impl pid env { gateDone := true, counter := st.counter }
                  [Effect.createTempDir, Effect.writeDockerfile impl.dockerfile,
                   Effect.dockerBuild (imageTag impl)] := by
              have hgst : { st with gateDone := true } =
                  ({ gateDone := true, counter := st.counter } : GState) := rfl
              simp [containerRun, htd, hwr, hg, hb, ho, hgst]
            rw [hrun, htr, hst']
            constructor
            · simp [List.countP_append, hb0, gateWeight, hg, isBuildEffect]
            · simp [List.countP_append, hr0, isRenderEffect, isBuildEffect]
      · obtain ⟨ext, htr, hext, _, hst', _⟩ :=
          containerRunAfterBuild_spec impl pid env st
            [Effect.createTempDir, Effect.writeDockerfile impl.dockerfile]
        have hb0 : ext.countP isBuildEffect = 0 :=
          List.countP_eq_zero.mpr (fun e he => by simp [(hext e he).1])
        have hr0 : ext.countP isRenderEffect = 0 :=
          List.countP_eq_zero.mpr (fun e he => by simp [(hext e he).2])
        have hrun : containerRun impl pid env st =
            containerRunAfterBuild impl pid env st
              [Effect.createTempDir, Effect.writeDockerfile impl.dockerfile] := by
          simp [containerRun, htd, hwr, hg]
        rw [hrun, htr, hst']
        constructor
        · simp [List.countP_append, hb0, gateWeight, hg, isBuildEffect]
        · simp [List.countP_append, hr0, isRenderEffect]

theorem runMany_gate (impl : Implementation) (pid : Nat) : ∀ (envs : List RunEnv) (st : GState),
    (allTraces (runMany impl pid envs st).1).countP isBuildEffect
      + gateWeight (runMany impl pid envs st).2 ≤ gateWeight st := by
  intro envs
  induction envs with
  | nil => intro st; simp [runMany, allTraces]
  | cons env envs ih =>
    intro st
    have hcall := (containerRun_gate impl pid env st).1
    have htail := ih (containerRun impl pid env st).2.1
    simp only [runMany, allTraces, List.map_cons, List.flatten_cons, List.countP_append] at *
    omega

/-- C2(counterexample): in two consecutive all-success sandbox creations for
the same profile, the build-context rendering (the fresh temporary directory
of step 1) is performed twice — it is not behind the one-time gate, refuting
the claim that steps (1) and (2) are each performed at most once. -/
theorem c2_one_time_gate_counterexample :
    ¬ ((allTraces c5Out).countP isRenderEffect ≤ 1) := by decide

/-- C2(amended): across any number of sandbox creations for one profile
within one process, the build-tool invocation (step 2) is performed at most
once — it alone is behind the per-profile one-time gate — while the
build-context rendering (step 1) is performed once on every call. -/
theorem c2_one_time_gate (impl : Implementation) (pid : Nat) (envs : List RunEnv)
    (st : GState) :
    (allTraces (runMany impl pid envs st).1).countP isBuildEffect ≤ 1 ∧
    (∀ r tr, (r, tr) ∈ (runMany impl pid envs st).1 →
      tr.countP isRenderEffect = 1) := by
  constructor
  · have h := runMany_gate impl pid envs st
    have hw : gateWeight st ≤ 1 := by unfold gateWeight; split <;> omega
    omega
  · induction envs generalizing st with
    | nil => intro r tr h; simp [runMany] at h
    | cons env envs ih =>
      intro r tr h
      simp only [runMany, List.mem_cons, Prod.mk.injEq] at h
      rcases h with ⟨_, h2⟩ | h
      · rw [h2]
        exact (containerRun_gate impl pid env st).2
      · exact ih _ _ _ h

theorem c2_one_time_gate_witness :
    (allTraces (runMany unboundImpl 7 [okRunEnv, okRunEnv]
        { gateDone := false, counter := 0 }).1).countP isBuildEffect ≤ 1 ∧
    ((c5Call0.1, c5Call0.2) ∈ (runMany unboundImpl 7 [okRunEnv, okRunEnv]
        { gateDone := false, counter := 0 }).1 ∧
      c5Call0.2.countP isRenderEffect = 1) :=
  ⟨(c2_one_time_gate unboundImpl 7 [okRunEnv, okRunEnv]
      { gateDone := false, counter := 0 }).1,
   by decide,
   (c2_one_time_gate unboundImpl 7 [okRunEnv, okRunEnv]
      { gateDone := false, counter := 0 }).2 c5Call0.1 c5Call0.2 (by decide)⟩

theorem digitChar_ne_dash : ∀ d, d < 10 → digitChar d ≠ '-' := by decide

theorem digitChar_inj : ∀ d1, d1 < 10 → ∀ d2, d2 < 10 → digitChar d1 = digitChar d2 →
    d1 = d2 := by decide

theorem natDigitsAux_eq : ∀ (fuel n : Nat), n ≤ fuel →
    natDigitsAux n fuel = (Nat.digits 10 n).map digitChar := by
  intro fuel
  induction fuel with
  | zero =>
    intro n hn
    have h0 : n = 0 := Nat.le_zero.mp hn
    subst h0
    simp [natDigitsAux]
  | succ fuel ih =>
    intro n hn
    by_cases h0 : n = 0
    · subst h0
      simp [natDigitsAux]
    · simp only [natDigitsAux, if_neg h0]
      have hdiv : n / 10 ≤ fuel := by
        have := Nat.div_lt_self (Nat.pos_of_ne_zero h0) (by norm_num : 1 < 10)
        omega
      rw [ih (n / 10) hdiv,
        Nat.digits_def' (by norm_num : 1 < 10) (Nat.pos_of_ne_zero h0)]
      simp

theorem natRepr_ne_dash : ∀ n, '-' ∉ natRepr n := by
  intro n
  by_cases h0 : n = 0
  · subst h0
    simp [natRepr]
  · rw [natRepr, if_neg h0, natDigitsAux_eq n n le_rfl]
    intro hmem
    rw [List.mem_reverse, List.mem_map] at hmem
    obtain ⟨d, hd, heq⟩ := hmem
    exact digitChar_ne_dash d (Nat.digits_lt_base (by norm_num) hd) heq

theorem natRepr_zero_unique {n : Nat} (hn : n ≠ 0) : natRepr n ≠ ['0'] := by
  intro h
  rw [natRepr, if_neg hn, natDigitsAux_eq n n le_rfl] at h
  have h' : (Nat.digits 10 n).map digitChar = ['0'] := by
    have := congrArg List.reverse h
    simpa using this
  rcases hd : Nat.digits 10 n with _ | ⟨d, rest⟩
  · rw [hd] at h'
    simp at h'
  · rw [hd] at h'
    simp only [List.map_cons, List.cons.injEq, List.map_eq_nil_iff] at h'
    obtain ⟨hdc, hrest⟩ := h'
    have hd10 : d < 10 :=
      Nat.digits_lt_base (by norm_num) (by rw [hd]; exact List.mem_cons_self _ _)
    have hd0 : d = 0 :=
      digitChar_inj d hd10 0 (by norm_num) (by rw [hdc]; decide)
    have hn' := Nat.ofDigits_digits 10 n
    rw [hd, hrest, hd0] at hn'
    simp [Nat.ofDigits] at hn'
    exact hn hn'.symm

theorem map_digitChar_inj : ∀ (l1 l2 : List Nat), (∀ d ∈ l1, d < 10) →
    (∀ d ∈ l2, d < 10) → l1.map digitChar = l2.map digitChar → l1 = l2 := by
  intro l1
  induction l1 with
  | nil =>
    intro l2 _ _ h
    cases l2 with
    | nil => rfl
    | cons d l => simp at h
  | cons d l ih =>
    intro l2 h1 h2 h
    cases l2 with
    | nil => simp at h
    | cons d' l' =>
      simp only [List.map_cons, List.cons.injEq] at h
      have hd : d = d' :=
        digitChar_inj d (h1 d (by simp)) d' (h2 d' (by simp)) h.1
      rw [hd, ih l' (fun x hx => h1 x (by simp [hx])) (fun x hx => h2 x (by simp [hx])) h.2]

theorem natRepr_inj : ∀ (m n : Nat), natRepr m = natRepr n → m = n := by
  intro m n h
  by_cases hm : m = 0 <;> by_cases hn : n = 0
  · rw [hm, hn]
  · exfalso
    subst hm
    have h0 : natRepr 0 = ['0'] := rfl
    rw [h0] at h
    exact natRepr_zero_unique hn h.symm
  · exfalso
    subst hn
    have h0 : natRepr 0 = ['0'] := rfl
    rw [h0] at h
    exact natRepr_zero_unique hm h
  · rw [natRepr, if_neg hm, natDigitsAux_eq m m le_rfl,
      natRepr, if_neg hn, natDigitsAux_eq n n le_rfl] at h
    have h' : (Nat.digits 10 m).map digitChar = (Nat.digits 10 n).map digitChar :=
      List.reverse_injective h
    have hd := map_digitChar_inj _ _
      (fun d hd => Nat.digits_lt_base (by norm_num) hd)
      (fun d hd => Nat.digits_lt_base (by norm_num) hd) h'
    have hfin := congrArg (Nat.ofDigits 10) hd
    rwa [Nat.ofDigits_digits, Nat.ofDigits_digits] at hfin

theorem takeWhile_append_dash (l x : RStr) (hl : '-' ∉ l) :
    (l ++ '-' :: x).takeWhile (fun c => !(c == '-')) = l := by
  induction l with
  | nil => simp [List.takeWhile_cons]
  | cons a l ih =>
    have ha : a ≠ '-' := by
      intro h
      exact hl (by simp [h])
    simp only [List.cons_append, List.takeWhile_cons]
    have hpa : (!(a == '-')) = true := by simp [ha]
    rw [hpa]
    simp only [if_true]
    rw [ih (fun h => hl (List.mem_cons_of_mem _ h))]

theorem last_dash_segment {a b r s : RStr} (hr : '-' ∉ r) (hs : '-' ∉ s)
    (h : a ++ '-' :: r = b ++ '-' :: s) : r = s := by
  have h' := congrArg List.reverse h
  simp only [List.reverse_append, List.reverse_cons] at h'
  rw [List.append_assoc, List.append_assoc, List.singleton_append,
    List.singleton_append] at h'
  have h1 : (r.reverse ++ '-' :: a.reverse).takeWhile (fun c => !(c == '-')) = r.reverse :=
    takeWhile_append_dash _ _ (by simpa using hr)
  have h2 : (s.reverse ++ '-' :: b.reverse).takeWhile (fun c => !(c == '-')) = s.reverse :=
    takeWhile_append_dash _ _ (by simpa using hs)
  have h3 : r.reverse = s.reverse := by
    rw [← h1, ← h2, h']
  exact List.reverse_injective h3

theorem mkName_eq_append (impl : Implementation) (pid count : Nat) :
    mkName impl pid count =
      (PACKAGE_NAME ++ '-' :: impl.display ++ '-' :: natRepr pid) ++ '-' :: natRepr count := by
  simp [mkName, List.append_assoc]

theorem mkName_count_inj {impl1 impl2 : Implementation} {pid1 pid2 c1 c2 : Nat}
    (h : mkName impl1 pid1 c1 = mkName impl2 pid2 c2) : c1 = c2 := by
  rw [mkName_eq_append, mkName_eq_append] at h
  exact natRepr_inj c1 c2
    (last_dash_segment (natRepr_ne_dash c1) (natRepr_ne_dash c2) h)

theorem containerRun_spec (impl : Implementation) (pid : Nat) (env : RunEnv) (st : GState) :
    (st.counter ≤ (containerRun impl pid env st).2.1.counter ∧
     (containerRun impl pid env st).2.1.counter ≤ st.counter + 1) ∧
    (∀ inner, (containerRun impl pid env st).1 = .ok inner →
      inner.name = mkName impl pid st.counter ∧
      Effect.freshCount st.counter ∈ (containerRun impl pid env st).2.2 ∧
      (containerRun impl pid env st).2.1.counter = st.counter + 1) := by
  cases htd : env.tempDirOk
  · have hrun : containerRun impl pid env st = (.err .io, st, [Effect.createTempDir]) := by
      simp [containerRun, htd]
    rw [hrun]
    exact ⟨⟨Nat.le_refl _, Nat.le_succ _⟩, fun inner h => by cases h⟩
  · cases hwr : env.writeOk
    · have hrun : containerRun impl pid env st =
          (.err .io, st, [Effect.createTempDir, Effect.writeDockerfile impl.dockerfile]) := by
        simp [containerRun, htd, hwr]
      rw [hrun]
      exact ⟨⟨Nat.le_refl _, Nat.le_succ _⟩, fun inner h => by cases h⟩
    · cases hg : st.gateDone
      · rcases hb : env.buildOutput with _ | o
        · have hrun : containerRun impl pid env st =
              (.panicked, { st with gateDone := true },
               [Effect.createTempDir, Effect.writeDockerfile impl.dockerfile,
                Effect.dockerBuild (imageTag impl)]) := by
            simp [containerRun, htd, hwr, hg, hb]
          rw [hrun]
          exact ⟨⟨Nat.le_refl _, Nat.le_succ _⟩, fun inner h => by cases h⟩
        · cases ho : o.success
          · have hrun : containerRun impl pid env st =
                (.panicked, { st with gateDone := true },
                 [Effect.createTempDir, Effect.writeDockerfile impl.dockerfile,
                  Effect.dockerBuild (imageTag impl)]) := by
              simp [containerRun, htd, hwr, hg, hb, ho]
            rw [hrun]
            exact ⟨⟨Nat.le_refl _, Nat.le_succ _⟩, fun inner h => by cases h⟩
          · have hrun : containerRun impl pid env st =
                containerRunAfterBuild impl pid env { gateDone := true, counter := st.counter }
                  [Effect.createTempDir, Effect.writeDockerfile impl.dockerfile,
                   Effect.dockerBuild (imageTag impl)] := by
              have hgst : { st with gateDone := true } =
                  ({ gateDone := true, counter := st.counter } : GState) := rfl
              simp [containerRun, htd, hwr, hg, hb, ho, hgst]
            obtain ⟨ext, htr, _, hfc, hst', hname⟩ :=
              containerRunAfterBuild_spec impl pid env
                { gateDone := true, counter := st.counter }
                [Effect.createTempDir, Effect.writeDockerfile impl.dockerfile,
                 Effect.dockerBuild (imageTag impl)]
            rw [hrun, htr, hst']
            refine ⟨⟨Nat.le_succ _, Nat.le_refl _⟩, fun inner h => ?_⟩
            exact ⟨hname inner h, List.mem_append_right _ hfc, rfl⟩
      · have hrun : containerRun impl pid env st =
            containerRunAfterBuild impl pid env st
              [Effect.createTempDir, Effect.writeDockerfile impl.dockerfile] := by
          simp [containerRun, htd, hwr, hg]
        obtain ⟨ext, htr, _, hfc, hst', hname⟩ :=
          containerRunAfterBuild_spec impl pid env st
            [Effect.createTempDir, Effect.writeDockerfile impl.dockerfile]
        rw [hrun, htr, hst']
        refine ⟨⟨Nat.le_succ _, Nat.le_refl _⟩, fun inner h => ?_⟩
        exact ⟨hname inner h, List.mem_append_right _ hfc, rfl⟩

theorem runMany_counter_le (impl : Implementation) (pid : Nat) :
    ∀ (envs : List RunEnv) (st : GState),
      st.counter ≤ (runMany impl pid envs st).2.counter := by
  intro envs
  induction envs with
  | nil => intro st; simp [runMany]
  | cons env envs ih =>
    intro st
    have h1 := (containerRun_spec impl pid env st).1.1
    have h2 := ih (containerRun impl pid env st).2.1
    simp only [runMany]
    omega

theorem runMany_ok_ge (impl : Implementation) (pid : Nat) :
    ∀ (envs : List RunEnv) (st : GState) (i : Nat) (r : RunResult) (tr : List Effect),
      (runMany impl pid envs st).1.get? i = some (r, tr) →
      ∀ inner, r = .ok inner →
        ∃ c, st.counter ≤ c ∧ inner.name = mkName impl pid c ∧
          Effect.freshCount c ∈ tr := by
  intro envs
  induction envs with
  | nil => intro st i r tr h; simp [runMany] at h
  | cons env envs ih =>
    intro st i r tr h inner hr
    cases i with
    | zero =>
      simp only [runMany, List.get?_cons_zero, Option.some.injEq, Prod.mk.injEq] at h
      obtain ⟨h1, h2⟩ := h
      subst hr
      obtain ⟨hname, hmem, _⟩ := (containerRun_spec impl pid env st).2 inner h1
      exact ⟨st.counter, le_rfl, hname, h2 ▸ hmem⟩
    | succ i =>
      simp only [runMany, List.get?_cons_succ] at h
      obtain ⟨c, hc, hname, hmem⟩ := ih (containerRun impl pid env st).2.1 i r tr h inner hr
      have := (containerRun_spec impl pid env st).1.1
      exact ⟨c, by omega, hname, hmem⟩

theorem runMany_ok_lt (impl : Implementation) (pid : Nat) :
    ∀ (envs : List RunEnv) (st : GState) (i j : Nat) (ri rj : RunResult)
      (tri trj : List Effect) (inni innj : Inner),
      i < j →
      (runMany impl pid envs st).1.get? i = some (ri, tri) →
      (runMany impl pid envs st).1.get? j = some (rj, trj) →
      ri = .ok inni → rj = .ok innj →
      ∃ ci cj, ci < cj ∧ inni.name = mkName impl pid ci ∧
        innj.name = mkName impl pid cj ∧
        Effect.freshCount ci ∈ tri ∧ Effect.freshCount cj ∈ trj := by
  intro envs
  induction envs with
  | nil => intro st i j ri rj tri trj inni innj hij hi hj hoi hoj; simp [runMany] at hi
  | cons env envs ih =>
    intro st i j ri rj tri trj inni innj hij hi hj hoi hoj
    cases i with
    | zero =>
      cases j with
      | zero => omega
      | succ j =>
        simp only [runMany, List.get?_cons_zero, Option.some.injEq, Prod.mk.injEq] at hi
        simp only [runMany, List.get?_cons_succ] at hj
        obtain ⟨h1, h2⟩ := hi
        subst hoi
        obtain ⟨hname, hmem, hcnt⟩ := (containerRun_spec impl pid env st).2 inni h1
        obtain ⟨cj, hcj, hnamej, hmemj⟩ :=
          runMany_ok_ge impl pid envs (containerRun impl pid env st).2.1 j rj trj hj innj hoj
        exact ⟨st.counter, cj, by omega, hname, hnamej, h2 ▸ hmem, hmemj⟩
    | succ i =>
      cases j with
      | zero => omega
      | succ j =>
        simp only [runMany, List.get?_cons_succ] at hi hj
        exact ih (containerRun impl pid env st).2.1 i j ri rj tri trj inni innj
          (by omega) hi hj hoi hoj

/-- C5: every successful sandbox creation is named
`PACKAGE_NAME-profile-pid-count` for the count it drew from the process-wide
counter (starting at 0); any two distinct creations within one process draw
distinct counter values, and hence receive distinct names. -/
theorem c5_unique_names (impl : Implementation) (pid : Nat) (g : Bool) (envs : List RunEnv)
    (i j : Nat) (ri rj : RunResult) (tri trj : List Effect) (inni innj : Inner)
    (hij : i ≠ j)
    (hi : (runMany impl pid envs { gateDone := g, counter := 0 }).1.get? i = some (ri, tri))
    (hj : (runMany impl pid envs { gateDone := g, counter := 0 }).1.get? j = some (rj, trj))
    (hoi : ri = .ok inni) (hoj : rj = .ok innj) :
    (∃ ci cj, ci ≠ cj ∧ inni.name = mkName impl pid ci ∧ innj.name = mkName impl pid cj ∧
      Effect.freshCount ci ∈ tri ∧ Effect.freshCount cj ∈ trj) ∧
    inni.name ≠ innj.name := by
  rcases Nat.lt_or_ge i j with hlt | hge
  · obtain ⟨ci, cj, hcc, h1, h2, h3, h4⟩ :=
      runMany_ok_lt impl pid envs _ i j ri rj tri trj inni innj hlt hi hj hoi hoj
    refine ⟨⟨ci, cj, by omega, h1, h2, h3, h4⟩, ?_⟩
    intro heq
    rw [h1, h2] at heq
    exact absurd (mkName_count_inj heq) (by omega)
  · have hlt : j < i := by omega
    obtain ⟨cj, ci, hcc, h2, h1, h4, h3⟩ :=
      runMany_ok_lt impl pid envs _ j i rj ri trj tri innj inni hlt hj hi hoj hoi
    refine ⟨⟨ci, cj, by omega, h1, h2, h3, h4⟩, ?_⟩
    intro heq
    rw [h1, h2] at heq
    exact absurd (mkName_count_inj heq) (by omega)

theorem c5_unique_names_witness :
    (0 : Nat) ≠ 1 ∧
    (runMany unboundImpl 7 [okRunEnv, okRunEnv] { gateDone := false, counter := 0 }).1.get? 0
      = some (c5Call0.1, c5Call0.2) ∧
    (runMany unboundImpl 7 [okRunEnv, okRunEnv] { gateDone := false, counter := 0 }).1.get? 1
      = some (c5Call1.1, c5Call1.2) ∧
    c5Call0.1 = .ok c5Inner0 ∧ c5Call1.1 = .ok c5Inner1 ∧
    ((∃ ci cj, ci ≠ cj ∧ c5Inner0.name = mkName unboundImpl 7 ci ∧
        c5Inner1.name = mkName unboundImpl 7 cj ∧
        Effect.freshCount ci ∈ c5Call0.2 ∧ Effect.freshCount cj ∈ c5Call1.2) ∧
      c5Inner0.name ≠ c5Inner1.name) :=
  ⟨by decide, by decide, by decide, by decide, by decide,
   c5_unique_names unboundImpl 7 false [okRunEnv, okRunEnv] 0 1 c5Call0.1 c5Call1.1
     c5Call0.2 c5Call1.2 c5Inner0 c5Inner1 (by decide) (by decide) (by decide)
     (by decide) (by decide)⟩

theorem c1_output_conversion_witness :
    tryFromOutput po0 = .ok out0 ∧ decodeUtf8 po0.stdout = some so0 ∧
    decodeUtf8 po0.stderr = some se0 ∧
    (out0.success = po0.success ∧ Stripped so0 out0.stdout ∧ Stripped se0 out0.stderr) :=
  ⟨rfl, rfl, rfl, (c1_output_conversion po0).2 out0 so0 se0 rfl rfl rfl⟩

theorem c3_resolve_address_witness :
    (getIpv4Addr wId inspOk).2 = [Effect.dockerInspect wId] ∧
    (getIpv4Addr wId inspOk).1 = .ok { a := 172, b := 17, c := 0, d := 2 } := by
  have h := c3_resolve_address wId inspOk
  exact ⟨h.1, (h.2.1 { a := 172, b := 17, c := 0, d := 2 }).mpr
    ⟨_, _, rfl, rfl, rfl, rfl⟩⟩

end DnsTest
